import Mathlib

/-!
Verification of the spaced-repetition scheduler and AI question-generation
plumbing of the no-hesi learning app.

The numeric code is shallowly embedded over `ℚ` (JavaScript numbers carry
exact decimal literals here; every constant appearing in the algorithms is
a small decimal fraction).  JavaScript `Math.round` is `⌊x + 1/2⌋`
(half-up rounding), embedded as `jsRound`.  Counts are `ℕ`, timestamps are
`ℚ` measured in hours on an abstract timeline.
-/

/-- JavaScript `Math.round`: round half-up, `Math.round x = ⌊x + 1/2⌋`. -/
def jsRound (x : ℚ) : ℤ := ⌊x + 1/2⌋

theorem jsRound_eq_of (x : ℚ) (n : ℤ) (h₁ : (n : ℚ) ≤ x + 1/2) (h₂ : x + 1/2 < n + 1) :
    jsRound x = n := by
  unfold jsRound
  rw [Int.floor_eq_iff]
  · exact ⟨h₁, by exact_mod_cast h₂⟩

theorem jsRound_nonneg (x : ℚ) (h : 0 ≤ x) : 0 ≤ jsRound x := by
  unfold jsRound
  rw [Int.le_floor]
  push_cast
  linarith

/-- `SpacedRepetitionConfig` from `spacedRepetition.ts` (all fields in hours,
except the two dimensionless factors). -/
structure SpacedRepetitionConfig where
  initialInterval : ℚ
  maxInterval : ℚ
  minInterval : ℚ
  easyBonus : ℚ
  hardPenalty : ℚ

/-- `DEFAULT_CONFIG` from `spacedRepetition.ts`. -/
def DEFAULT_CONFIG : SpacedRepetitionConfig :=
  { initialInterval := 5
    maxInterval := 168
    minInterval := 1
    easyBonus := 5/2
    hardPenalty := 2 }

/-- The `'easy' | 'good' | 'hard' | 'again'` performance rating. -/
inductive Performance where
  | easy
  | good
  | hard
  | again
deriving DecidableEq

/-- `SpacedRepetitionService.calculateNextInterval`: the `switch` on the
performance rating followed by the clamp
`Math.min(Math.max(newInterval, minInterval), maxInterval)`. -/
def calculateNextInterval (cfg : SpacedRepetitionConfig) (currentInterval : ℚ)
    (performance : Performance) (consecutiveCorrect : ℕ) : ℚ :=
  let newInterval :=
    match performance with
    | .again => cfg.minInterval
    | .hard => max (currentInterval / cfg.hardPenalty) cfg.minInterval
    | .good =>
        if consecutiveCorrect = 0 then cfg.initialInterval
        else if consecutiveCorrect = 1 then cfg.initialInterval * 2
        else currentInterval * 2
    | .easy =>
        if consecutiveCorrect = 0 then cfg.initialInterval * 2
        else currentInterval * cfg.easyBonus
  min (max newInterval cfg.minInterval) cfg.maxInterval

/-- `SpacedRepetitionService.calculateMasteryLevel`. -/
def calculateMasteryLevel (cfg : SpacedRepetitionConfig)
    (correctAnswers totalAttempts consecutiveCorrect : ℕ) (currentInterval : ℚ) : ℤ :=
  if totalAttempts = 0 then 0
  else
    let accuracy : ℚ := (correctAnswers : ℚ) / (totalAttempts : ℚ)
    let consistencyBonus : ℚ := min ((consecutiveCorrect : ℚ) * 10) 30
    let intervalBonus : ℚ := min ((currentInterval / cfg.maxInterval) * 20) 20
    min (jsRound (accuracy * 50 + consistencyBonus + intervalBonus)) 100

/-- The fields of the `Progress` record that `processAnswer` writes.  The
identity fields (`id`, `userId`, `questionId`, `topicId`) are keys handled by
the external store and are not part of the update payload, so they are kept
out of the embedded record.  Timestamps are rationals in hours. -/
structure Progress where
  correctAnswers : ℕ
  totalAttempts : ℕ
  consecutiveCorrect : ℕ
  lastAnsweredAt : ℚ
  nextReviewAt : ℚ
  reviewInterval : ℚ
  masteryLevel : ℤ
  isCompleted : Bool
  lastPerformance : Option Performance
  averageResponseTime : Option ℚ

/-- `SpacedRepetitionService.isQuestionMastered`. -/
def isQuestionMastered (progress : Progress) : Bool :=
  decide (80 ≤ progress.masteryLevel) &&
  decide (3 ≤ progress.correctAnswers) &&
  decide (24 ≤ progress.reviewInterval)

/-- `SpacedRepetitionService.calculateAverageResponseTime`.  The JavaScript
guard `!currentAverage || totalAttempts === 1` is truthy both when the
average is absent and when it is the number `0`. -/
def calculateAverageResponseTime (currentAverage : Option ℚ) (newTime : ℚ)
    (totalAttempts : ℕ) : ℚ :=
  match currentAverage with
  | none => newTime
  | some a =>
      if a = 0 ∨ totalAttempts = 1 then newTime
      else
        let weight : ℚ := 3/10
        a * (1 - weight) + newTime * weight

/-- `SpacedRepetitionService.processAnswer`, as the pure state transition from
the loaded record (or `none` on the first answer) to the record written to the
store.  `now` is the current time in hours.  The JavaScript
`currentProgress?.reviewInterval || initialInterval` falls back to the initial
interval both when no record exists and when the stored interval is the falsy
number `0`; likewise `responseTime ? … : …` takes the else-branch when the
supplied response time is `0`. -/
def processAnswer (cfg : SpacedRepetitionConfig) (currentProgress : Option Progress)
    (performance : Performance) (responseTime : Option ℚ) (now : ℚ) : Progress :=
  let isCorrect := performance ≠ Performance.again
  let priorCorrect := match currentProgress with | none => 0 | some p => p.correctAnswers
  let newCorrectAnswers := if isCorrect then priorCorrect + 1 else priorCorrect
  let newTotalAttempts := (match currentProgress with | none => 0 | some p => p.totalAttempts) + 1
  let consecutiveCorrect :=
    if isCorrect then
      (match currentProgress with | none => 0 | some p => p.consecutiveCorrect) + 1
    else 0
  let currentInterval :=
    match currentProgress with
    | none => cfg.initialInterval
    | some p => if p.reviewInterval = 0 then cfg.initialInterval else p.reviewInterval
  let nextInterval := calculateNextInterval cfg currentInterval performance consecutiveCorrect
  let masteryLevel :=
    calculateMasteryLevel cfg newCorrectAnswers newTotalAttempts consecutiveCorrect nextInterval
  let priorAverage := currentProgress.bind Progress.averageResponseTime
  { correctAnswers := newCorrectAnswers
    totalAttempts := newTotalAttempts
    consecutiveCorrect := consecutiveCorrect
    lastAnsweredAt := now
    nextReviewAt := now + nextInterval
    reviewInterval := nextInterval
    masteryLevel := masteryLevel
    -- the source calls `isQuestionMastered` on a partial object holding only
    -- these three fields (cast `as Progress`); the remaining fields are never
    -- read by it, so they are filled with placeholders here
    isCompleted := isQuestionMastered
      { correctAnswers := newCorrectAnswers
        totalAttempts := 0
        consecutiveCorrect := 0
        lastAnsweredAt := 0
        nextReviewAt := 0
        reviewInterval := nextInterval
        masteryLevel := masteryLevel
        isCompleted := false
        lastPerformance := none
        averageResponseTime := none }
    lastPerformance := some performance
    averageResponseTime :=
      match responseTime with
      | none => priorAverage
      | some t =>
          if t = 0 then priorAverage
          else some (calculateAverageResponseTime priorAverage t newTotalAttempts) }

/-- The `'immediate' | 'spaced' | 'manual'` session type. -/
inductive SessionType where
  | immediate
  | spaced
  | manual
deriving DecidableEq

/-- The session-type filter inside `getQuestionsForReview`: `immediate` keeps
records with `lastAnsweredAt >= oneHourAgo`, `spaced` keeps records with
`lastAnsweredAt <= twoHoursAgo`, `manual` keeps everything.  Times are hours,
so `oneHourAgo = now - 1` and `twoHoursAgo = now - 2`. -/
def sessionFilter (now : ℚ) (sessionType : SessionType) (dueQuestions : List Progress) :
    List Progress :=
  match sessionType with
  | .immediate => dueQuestions.filter fun q => now - 1 ≤ q.lastAnsweredAt
  | .spaced => dueQuestions.filter fun q => q.lastAnsweredAt ≤ now - 2
  | .manual => dueQuestions

/-- The sort comparator inside `getQuestionsForReview` (`-1`, `1`, or
`a.masteryLevel - b.masteryLevel`), with `aOverdue = now - a.nextReviewAt`. -/
def reviewCompare (now : ℚ) (a b : Progress) : ℤ :=
  let aOverdue := now - a.nextReviewAt
  let bOverdue := now - b.nextReviewAt
  if 0 < aOverdue ∧ bOverdue ≤ 0 then -1
  else if 0 < bOverdue ∧ aOverdue ≤ 0 then 1
  else a.masteryLevel - b.masteryLevel

/-- `a` may stay before `b` under the comparator (`reviewCompare ≤ 0`): the
ordering realised by the stable sort. -/
def reviewLE (now : ℚ) (a b : Progress) : Bool :=
  decide (reviewCompare now a b ≤ 0)

/-- `SpacedRepetitionService.getQuestionsForReview`, with the store read made
explicit: `dueQuestions` is the pool the external store returned and `now` the
current time in hours.  The JavaScript `Array.prototype.sort` is stable
(ES2019), embedded as `List.mergeSort`. -/
def getQuestionsForReview (now : ℚ) (dueQuestions : List Progress)
    (sessionType : SessionType) (limit : ℕ) : List Progress :=
  (((sessionFilter now sessionType dueQuestions).mergeSort (reviewLE now)).take limit)

/-- The `'excellent' | 'good' | 'needs_improvement'` performance tier of a
review session. -/
inductive PerformanceTier where
  | excellent
  | good
  | needs_improvement
deriving DecidableEq

/-- The record returned by `generateSessionStats`. -/
structure SessionStats where
  accuracy : ℤ
  questionsPerMinute : ℚ
  efficiency : ℤ
  performance : PerformanceTier
deriving DecidableEq

/-- `SpacedRepetitionService.generateSessionStats`.  `sessionDuration` is in
seconds, `averageResponseTime` in seconds. -/
def generateSessionStats (questionsReviewed correctAnswers : ℕ)
    (sessionDuration averageResponseTime : ℚ) : SessionStats :=
  let accuracy : ℚ :=
    if 0 < questionsReviewed then ((correctAnswers : ℚ) / (questionsReviewed : ℚ)) * 100 else 0
  let questionsPerMinute : ℚ :=
    if 0 < sessionDuration then (questionsReviewed : ℚ) / (sessionDuration / 60) else 0
  let idealResponseTime : ℚ := 15
  let efficiency : ℚ := max 0 (100 - |averageResponseTime - idealResponseTime| * 2)
  let performance : PerformanceTier :=
    if 80 ≤ accuracy ∧ 70 ≤ efficiency then .excellent
    else if 60 ≤ accuracy ∧ 50 ≤ efficiency then .good
    else .needs_improvement
  { accuracy := jsRound accuracy
    questionsPerMinute := (jsRound (questionsPerMinute * 10) : ℚ) / 10
    efficiency := jsRound efficiency
    performance := performance }

/-- Question types from `types/index.ts` (`'open'` is `openEnded` here since
`open` is a Lean keyword). -/
inductive QuestionType where
  | openEnded
  | multiple_choice
  | true_false
deriving DecidableEq

/-- Question difficulty from `types/index.ts`. -/
inductive Difficulty where
  | easy
  | medium
  | hard
deriving DecidableEq

/-- A `GeminiQuestion`.  Fields the JavaScript copies verbatim from dynamic
values (`q.question || ''`) are embedded at their declared types, with
non-string junk coerced to the falsy default. -/
structure GeminiQuestion where
  question : String
  answer : String
  options : Option (List String)
  type : QuestionType
  difficulty : Difficulty
deriving DecidableEq

/-- JSON values, as produced by the platform's `JSON.parse` builtin. -/
inductive Json where
  | null
  | bool (b : Bool)
  | num (q : ℚ)
  | str (s : String)
  | arr (elems : List Json)
  | obj (fields : List (String × Json))

/-- Property access `j.k` on a parsed JSON value: defined only on objects,
`undefined` (`none`) otherwise. -/
def Json.getField (j : Json) (key : String) : Option Json :=
  match j with
  | .obj fields => (fields.find? fun kv => kv.1 = key).map Prod.snd
  | _ => none

/-- `GeminiService.validateQuestionType` on a string argument (the
`type?.toLowerCase()` normalisation and the three-way match). -/
def validateQuestionType (type : String) : QuestionType :=
  let normalizedType := type.toLower
  if normalizedType = "multiple_choice" ∨ normalizedType = "multiple choice" then
    .multiple_choice
  else if normalizedType = "true_false" ∨ normalizedType = "true/false" then
    .true_false
  else
    .openEnded

/-- One element of `parsed.questions.map(...)` in
`GeminiService.parseGeneratedQuestions`.  `none` models the `TypeError` the
JavaScript throws when `q.type` is a truthy non-string (no `toLowerCase`
method); missing and `null` types fall through `type?.toLowerCase()` to
`'open'`. -/
def mapParsedQuestion (difficulty : Difficulty) (q : Json) : Option GeminiQuestion :=
  let typeField :=
    match q.getField "type" with
    | none => some QuestionType.openEnded
    | some .null => some QuestionType.openEnded
    | some (.str s) => some (validateQuestionType s)
    | some _ => none
  typeField.map fun t =>
    { question := match q.getField "question" with | some (.str s) => s | _ => ""
      answer := match q.getField "answer" with | some (.str s) => s | _ => ""
      options :=
        match q.getField "options" with
        | some (.arr elems) =>
            some (elems.map fun e => match e with | .str s => s | _ => "")
        | _ => none
      type := t
      difficulty := difficulty }

/-- The regex `/\{[\s\S]*\}/` of `parseGeneratedQuestions`: greedily matches
from the first `{` through the last `}`; `none` when there is no such block. -/
def extractJsonBlock (s : String) : Option String :=
  let cs := s.data
  match cs.findIdx? (fun c => c = '{'), cs.reverse.findIdx? (fun c => c = '}') with
  | some i, some rj =>
      let j := cs.length - 1 - rj
      if i ≤ j then some (String.mk ((cs.drop i).take (j - i + 1))) else none
  | _, _ => none

/-- The `try`-block of `GeminiService.parseGeneratedQuestions`: extract the
JSON block, parse it with the platform builtin `jsonParse`, check that
`parsed.questions` is an array, and map its elements.  `none` models any
exception on this path (no JSON block, `JSON.parse` throw, bad shape, or a
`TypeError` while mapping). -/
def parsedQuestions? (jsonParse : String → Option Json) (generatedText : String)
    (difficulty : Difficulty) : Option (List GeminiQuestion) := do
  let block ← extractJsonBlock generatedText
  let parsed ← jsonParse block
  match parsed.getField "questions" with
  | some (.arr qs) => qs.mapM (mapParsedQuestion difficulty)
  | _ => none

/-- The fallback line scanner `GeminiService.parseQuestionsFromText`: walk the
non-blank lines, collect `question:`/`answer:` pairs (the `if` guards use
JavaScript string truthiness, i.e. non-emptiness). -/
def parseQuestionsFromText (text : String) (difficulty : Difficulty) :
    List GeminiQuestion :=
  let lines := (text.splitOn "\n").filter fun line => line.trim ≠ ""
  let containsSub := fun (needle hay : String) => decide (needle.data <:+: hay.data)
  let afterColon := fun (line : String) =>
    (String.intercalate ":" ((line.splitOn ":").drop 1)).trim
  let step := fun (state : List GeminiQuestion × String × String) (line : String) =>
    let (questions, currentQuestion, currentAnswer) := state
    if containsSub "question" line.toLower ∧ line.contains ':' then
      let questions' :=
        if currentQuestion ≠ "" ∧ currentAnswer ≠ "" then
          questions ++ [{ question := currentQuestion, answer := currentAnswer,
                          options := none, type := .openEnded, difficulty := difficulty }]
        else questions
      (questions', afterColon line, "")
    else if containsSub "answer" line.toLower ∧ line.contains ':' then
      (questions, currentQuestion, afterColon line)
    else
      (questions, currentQuestion, currentAnswer)
  let (questions, currentQuestion, currentAnswer) := lines.foldl step ([], "", "")
  if currentQuestion ≠ "" ∧ currentAnswer ≠ "" then
    questions ++ [{ question := currentQuestion, answer := currentAnswer,
                    options := none, type := .openEnded, difficulty := difficulty }]
  else questions

/-- `GeminiService.parseGeneratedQuestions`: the parsed questions when the
`try`-block succeeds, the fallback line scan otherwise. -/
def parseGeneratedQuestions (jsonParse : String → Option Json) (generatedText : String)
    (difficulty : Difficulty) : List GeminiQuestion :=
  match parsedQuestions? jsonParse generatedText difficulty with
  | some questions => questions
  | none => parseQuestionsFromText generatedText difficulty

/-- The text of one element of `candidates[0].content.parts` (only `.text` is
ever read, so a part is its text). -/
structure CandidateContent where
  parts : List String

/-- One element of `data.candidates`; `content` may be absent. -/
structure Candidate where
  content : Option CandidateContent

/-- The response envelope `data` returned by the Gemini HTTP call;
`candidates` may be absent. -/
structure GeminiEnvelope where
  candidates : Option (List Candidate)

/-- Outcome of the `fetch` to the Gemini endpoint, as reported by the external
HTTP client: a response with `response.ok` true and a parsed JSON body, or a
non-success status. -/
inductive HttpOutcome where
  | ok (data : GeminiEnvelope)
  | httpError (status : ℕ)

/-- The distinct `throw` sites of `GeminiService.generateQuestions` (every
exception on the path is rethrown by the `catch`). -/
inductive GenError where
  | noApiKey
  | requestFailed (status : ℕ)
  | invalidResponse
  | missingPart
deriving DecidableEq

/-- `GeminiService.generateQuestions`, with the external collaborators made
explicit: `jsonParse` is the platform `JSON.parse` builtin and `outcome` what
the HTTP client returned.  The prompt-construction inputs (topic, description,
count) only feed the outgoing request body and do not influence the result,
so they are omitted.  `missingPart` is the `TypeError` thrown by
`data.candidates[0].content.parts[0].text` when `parts` is empty. -/
def generateQuestions (jsonParse : String → Option Json) (apiKey : String)
    (outcome : HttpOutcome) (difficulty : Difficulty) :
    Except GenError (List GeminiQuestion) :=
  if apiKey = "" then .error .noApiKey
  else
    match outcome with
    | .httpError status => .error (.requestFailed status)
    | .ok data =>
        match data.candidates with
        | none => .error .invalidResponse
        | some [] => .error .invalidResponse
        | some (c :: _) =>
            match c.content with
            | none => .error .invalidResponse
            | some content =>
                match content.parts with
                | [] => .error .missingPart
                | generatedText :: _ =>
                    .ok (parseGeneratedQuestions jsonParse generatedText difficulty)

/-! ### Spec-side definitions

The following definitions transcribe the specification's wording (not the
source) and are compared with the embedded code in the claim theorems. -/

/-- Spec: "clamped to [1,168]" (default `minInterval = 1`, `maxInterval = 168`). -/
def specClamp (x : ℚ) : ℚ := min (max x 1) 168

/-- Spec formula for the mastery level: `round(accuracy*50 + consistencyBonus
+ intervalBonus)` capped at 100, and 0 when there are no attempts. -/
def masterySpec (correct totalAttempts consecutiveCorrect : ℕ) (currentInterval : ℚ) : ℤ :=
  if totalAttempts = 0 then 0
  else
    min (jsRound (((correct : ℚ) / (totalAttempts : ℚ)) * 50
      + min ((consecutiveCorrect : ℚ) * 10) 30
      + min ((currentInterval / 168) * 20) 20)) 100

/-- Spec filter for the review selection: `immediate` keeps records answered
within the last hour, `spaced` keeps records answered at least two hours ago,
`manual` keeps all. -/
def specSessionKeeps (now : ℚ) (sessionType : SessionType) (q : Progress) : Prop :=
  match sessionType with
  | .immediate => now - 1 ≤ q.lastAnsweredAt
  | .spaced => q.lastAnsweredAt ≤ now - 2
  | .manual => True

instance (now : ℚ) (sessionType : SessionType) :
    DecidablePred (specSessionKeeps now sessionType) := by
  intro q
  cases sessionType <;> simp [specSessionKeeps] <;> infer_instance

/-- Spec: a record is overdue when `now` is strictly after `nextReviewAt`. -/
def specOverdue (now : ℚ) (q : Progress) : Prop := q.nextReviewAt < now

/-- Spec ordering for the review queue: overdue records before non-overdue
ones; within equal overdue-ness, ascending mastery level. -/
def specPriorityLE (now : ℚ) (a b : Progress) : Prop :=
  (specOverdue now a ∧ ¬ specOverdue now b) ∨
  ((specOverdue now a ↔ specOverdue now b) ∧ a.masteryLevel ≤ b.masteryLevel)

/-- Spec formula for the (pre-rounding) session accuracy percentage. -/
def summarizeAccuracySpec (questionsReviewed correctAnswers : ℕ) : ℚ :=
  if questionsReviewed = 0 then 0
  else ((correctAnswers : ℚ) / (questionsReviewed : ℚ)) * 100

/-- Spec formula for the (pre-rounding) session efficiency:
`max(0, 100 - |avgResponseTime - 15| * 2)`. -/
def summarizeEfficiencySpec (averageResponseTime : ℚ) : ℚ :=
  max 0 (100 - |averageResponseTime - 15| * 2)

/-! ### Claim theorems -/

/-- **C1.** With the default configuration, `calculateNextInterval` follows the
spec's case analysis: `again` yields `minInterval = 1`; `hard` yields
`max(currentInterval/2, 1)` clamped; `good` yields 5 / 10 / `currentInterval*2`
for 0 / 1 / more consecutive correct answers, clamped; `easy` yields 10 /
`currentInterval*2.5`, clamped. -/
theorem calculateNextInterval_follows_spec_cases (i : ℚ) (k : ℕ) :
    calculateNextInterval DEFAULT_CONFIG i .again k = 1 ∧
    calculateNextInterval DEFAULT_CONFIG i .hard k = specClamp (max (i / 2) 1) ∧
    calculateNextInterval DEFAULT_CONFIG i .good k =
      (if k = 0 then 5 else if k = 1 then 10 else specClamp (i * 2)) ∧
    calculateNextInterval DEFAULT_CONFIG i .easy k =
      (if k = 0 then 10 else specClamp (i * (5/2))) := by
  refine ⟨?_, ?_, ?_, ?_⟩
  · simp [calculateNextInterval, DEFAULT_CONFIG]
  · simp only [calculateNextInterval, DEFAULT_CONFIG, specClamp]
  · rcases Nat.eq_zero_or_pos k with hk | hk
    · subst hk
      norm_num [calculateNextInterval, DEFAULT_CONFIG]
    · rcases eq_or_ne k 1 with hk1 | hk1
      · subst hk1
        norm_num [calculateNextInterval, DEFAULT_CONFIG]
      · simp [calculateNextInterval, DEFAULT_CONFIG, specClamp, Nat.pos_iff_ne_zero.mp hk, hk1]
  · rcases Nat.eq_zero_or_pos k with hk | hk
    · subst hk
      norm_num [calculateNextInterval, DEFAULT_CONFIG]
    · simp [calculateNextInterval, DEFAULT_CONFIG, specClamp, Nat.pos_iff_ne_zero.mp hk]

/-- **C3, counterexample.** At `currentInterval = 1` and `consecutiveCorrect =
1` an `easy` answer yields `1 * 2.5 = 2.5` but a `good` answer yields the flat
`initialInterval * 2 = 10`, so `easy` falls strictly behind `good`. -/
theorem easy_behind_good_at_streak_one :
    calculateNextInterval DEFAULT_CONFIG 1 .easy 1 = 5/2 ∧
    calculateNextInterval DEFAULT_CONFIG 1 .good 1 = 10 ∧
    ¬ calculateNextInterval DEFAULT_CONFIG 1 .good 1 ≤
        calculateNextInterval DEFAULT_CONFIG 1 .easy 1 := by
  refine ⟨?_, ?_, ?_⟩ <;> norm_num [calculateNextInterval, DEFAULT_CONFIG]

/-- **C3, amended.** For every interval and every `consecutiveCorrect ≥ 2`
(where both ratings scale the current interval), an `easy` answer never yields
a shorter next interval than a `good` answer. -/
theorem easy_never_behind_good_from_streak_two (i : ℚ) (k : ℕ) (hk : 2 ≤ k) :
    calculateNextInterval DEFAULT_CONFIG i .good k ≤
      calculateNextInterval DEFAULT_CONFIG i .easy k := by
  have hk0 : k ≠ 0 := by omega
  have hk1 : k ≠ 1 := by omega
  simp only [calculateNextInterval, DEFAULT_CONFIG, if_neg hk0, if_neg hk1]
  have hmax : max (i * 2) 1 ≤ max (i * (5/2)) 1 := by
    rcases le_or_lt 0 i with hi | hi
    · exact max_le_max (by nlinarith) le_rfl
    · rw [max_eq_right (by nlinarith : i * 2 ≤ 1), max_eq_right (by nlinarith : i * (5/2) ≤ 1)]
  exact min_le_min hmax le_rfl

/-- **C3, witness.** The amended monotonicity at `i = 4`, `k = 2`. -/
theorem easy_never_behind_good_from_streak_two_witness :
    2 ≤ 2 ∧ calculateNextInterval DEFAULT_CONFIG 4 .good 2 ≤
      calculateNextInterval DEFAULT_CONFIG 4 .easy 2 :=
  ⟨by decide, easy_never_behind_good_from_streak_two 4 2 (by decide)⟩

theorem calculateNextInterval_bounds (cfg : SpacedRepetitionConfig) (i : ℚ)
    (p : Performance) (k : ℕ) (hmin : 1 ≤ cfg.minInterval) (hmax : 168 ≤ cfg.maxInterval) :
    1 ≤ calculateNextInterval cfg i p k ∧ calculateNextInterval cfg i p k ≤ cfg.maxInterval := by
  unfold calculateNextInterval
  constructor
  · exact le_min (le_trans hmin (le_max_right _ _)) (by linarith)
  · exact min_le_right _ _

theorem calculateMasteryLevel_bounds (correct total k : ℕ) (i : ℚ) (hi : 0 ≤ i) :
    0 ≤ calculateMasteryLevel DEFAULT_CONFIG correct total k i ∧
    calculateMasteryLevel DEFAULT_CONFIG correct total k i ≤ 100 := by
  unfold calculateMasteryLevel
  rcases eq_or_ne total 0 with h | h
  · simp [h]
  · rw [if_neg h]
    refine ⟨le_min ?_ (by norm_num), min_le_right _ _⟩
    apply jsRound_nonneg
    have h1 : (0:ℚ) ≤ (correct : ℚ) / (total : ℚ) * 50 := by positivity
    have h2 : (0:ℚ) ≤ min ((k : ℚ) * 10) 30 := le_min (by positivity) (by norm_num)
    have h3 : (0:ℚ) ≤ min ((i / DEFAULT_CONFIG.maxInterval) * 20) 20 := by
      refine le_min ?_ (by norm_num)
      have : (0:ℚ) < DEFAULT_CONFIG.maxInterval := by norm_num [DEFAULT_CONFIG]
      positivity
    linarith

/-- **C2.** Every record written by `processAnswer` (default configuration)
satisfies the data-model invariant: `reviewInterval ∈ [1, 168]` for every
loaded record (including stored intervals 0 or 100000), `masteryLevel ∈
[0, 100]`, and `isCompleted` is true exactly when the newly written values
satisfy the `isQuestionMastered` predicate (`masteryLevel ≥ 80`,
`correctAnswers ≥ 3`, `reviewInterval ≥ 24`). -/
theorem processAnswer_invariants (p : Option Progress) (perf : Performance)
    (rt : Option ℚ) (now : ℚ) :
    1 ≤ (processAnswer DEFAULT_CONFIG p perf rt now).reviewInterval ∧
    (processAnswer DEFAULT_CONFIG p perf rt now).reviewInterval ≤ 168 ∧
    0 ≤ (processAnswer DEFAULT_CONFIG p perf rt now).masteryLevel ∧
    (processAnswer DEFAULT_CONFIG p perf rt now).masteryLevel ≤ 100 ∧
    ((processAnswer DEFAULT_CONFIG p perf rt now).isCompleted = true ↔
      (80 ≤ (processAnswer DEFAULT_CONFIG p perf rt now).masteryLevel ∧
       3 ≤ (processAnswer DEFAULT_CONFIG p perf rt now).correctAnswers ∧
       24 ≤ (processAnswer DEFAULT_CONFIG p perf rt now).reviewInterval)) := by
  refine ⟨?_, ?_, ?_, ?_, ?_⟩ <;> simp only [processAnswer]
  · exact (calculateNextInterval_bounds _ _ _ _ (by norm_num [DEFAULT_CONFIG])
      (by norm_num [DEFAULT_CONFIG])).1
  · exact le_trans (calculateNextInterval_bounds _ _ _ _ (by norm_num [DEFAULT_CONFIG])
      (by norm_num [DEFAULT_CONFIG])).2 (by norm_num [DEFAULT_CONFIG])
  · refine (calculateMasteryLevel_bounds _ _ _ _ ?_).1
    exact le_trans (by norm_num) (calculateNextInterval_bounds _ _ _ _
      (by norm_num [DEFAULT_CONFIG]) (by norm_num [DEFAULT_CONFIG])).1
  · refine (calculateMasteryLevel_bounds _ _ _ _ ?_).2
    exact le_trans (by norm_num) (calculateNextInterval_bounds _ _ _ _
      (by norm_num [DEFAULT_CONFIG]) (by norm_num [DEFAULT_CONFIG])).1
  · simp [isQuestionMastered, and_assoc]

/-- **C5, counterexample.** On the first answer to a question (no existing
record) with performance `good`, the created record's `reviewInterval` is 10
hours (the streak becomes 1, so `initialInterval * 2`), not the
`initialInterval` of 5 hours. -/
theorem first_answer_reviewInterval_not_initial :
    (processAnswer DEFAULT_CONFIG none .good none 0).reviewInterval = 10 ∧
    (processAnswer DEFAULT_CONFIG none .good none 0).reviewInterval ≠
      DEFAULT_CONFIG.initialInterval := by
  have h : (processAnswer DEFAULT_CONFIG none .good none 0).reviewInterval = 10 := by
    simp [processAnswer, calculateNextInterval, DEFAULT_CONFIG]
    norm_num [min_def, max_def]
  exact ⟨h, by rw [h]; norm_num [DEFAULT_CONFIG]⟩

/-- **C5, amended.** The record created on the first answer to a question
stores the already-updated interval `calculateNextInterval(initialInterval,
performance, streak)` where the streak is 1 for a correct answer and 0 for
`again`: concretely 1 / 2.5 / 10 / 12.5 hours for `again` / `hard` / `good` /
`easy` — not `initialInterval` itself. -/
theorem processAnswer_first_answer_reviewInterval (perf : Performance)
    (rt : Option ℚ) (now : ℚ) :
    (processAnswer DEFAULT_CONFIG none perf rt now).reviewInterval =
      (match perf with
       | .again => 1
       | .hard => 5/2
       | .good => 10
       | .easy => 25/2) := by
  cases perf <;> simp [processAnswer, calculateNextInterval, DEFAULT_CONFIG] <;>
    norm_num [min_def, max_def]

/-- The loaded record used in the C4 counterexample and witness: one prior
attempt with a stored average response time of 10 seconds. -/
def priorWithAverage : Progress :=
  { correctAnswers := 1
    totalAttempts := 1
    consecutiveCorrect := 1
    lastAnsweredAt := 0
    nextReviewAt := 5
    reviewInterval := 5
    masteryLevel := 60
    isCompleted := false
    lastPerformance := some .good
    averageResponseTime := some 10 }

/-- **C4, counterexample.** A call that supplies the sample `t = 0` keeps the
prior average unchanged (JavaScript `responseTime ? … : …` treats 0 as
falsy): the written average is 10, not `10 * 0.7 + 0 * 0.3 = 7`. -/
theorem responseTime_zero_keeps_prior_average :
    (processAnswer DEFAULT_CONFIG (some priorWithAverage) .good (some 0) 0).averageResponseTime
      = some 10 ∧
    (10 : ℚ) ≠ 10 * (7/10) + 0 * (3/10) := by
  constructor
  · simp [processAnswer, priorWithAverage]
  · norm_num

/-- **C4, amended.** For every call that supplies a positive response-time
sample `t`: when the loaded record carries a positive prior average `a` and at
least one prior attempt, the written average is `a * 0.7 + t * 0.3`; when no
prior average exists (no record, or a record without one), the written average
is `t`.  (A sample of 0, a stored average of 0, and a stored attempt count of
0 all take the JavaScript falsy shortcut instead.) -/
theorem processAnswer_average_ewma :
    (∀ (r : Progress) (a t now : ℚ) (perf : Performance),
        r.averageResponseTime = some a → 0 < a → 0 < t → 1 ≤ r.totalAttempts →
        (processAnswer DEFAULT_CONFIG (some r) perf (some t) now).averageResponseTime
          = some (a * (7/10) + t * (3/10))) ∧
    (∀ (p : Option Progress) (t now : ℚ) (perf : Performance),
        0 < t → p.bind Progress.averageResponseTime = none →
        (processAnswer DEFAULT_CONFIG p perf (some t) now).averageResponseTime = some t) := by
  constructor
  · intro r a t now perf hsome ha ht hatt
    simp only [processAnswer, Option.bind, hsome, calculateAverageResponseTime]
    rw [if_neg (by linarith : ¬ t = 0), if_neg]
    · norm_num
    · push_neg
      exact ⟨by linarith, by omega⟩
  · intro p t now perf ht hnone
    rcases p with _ | r
    · simp only [processAnswer, Option.bind, calculateAverageResponseTime]
      rw [if_neg (by linarith : ¬ t = 0)]
    · simp only [Option.bind] at hnone
      simp only [processAnswer, Option.bind, hnone, calculateAverageResponseTime]
      rw [if_neg (by linarith : ¬ t = 0)]

/-- **C4, witness.** The amended update at the concrete record
`priorWithAverage` (prior average 10, one prior attempt) and sample `t = 5`:
the written average is `10 * 0.7 + 5 * 0.3`. -/
theorem processAnswer_average_ewma_witness :
    priorWithAverage.averageResponseTime = some 10 ∧ (0:ℚ) < 10 ∧ (0:ℚ) < 5 ∧
    1 ≤ priorWithAverage.totalAttempts ∧
    (processAnswer DEFAULT_CONFIG (some priorWithAverage) .good (some 5) 0).averageResponseTime
      = some (10 * (7/10) + 5 * (3/10)) :=
  ⟨rfl, by norm_num, by norm_num, by decide,
    processAnswer_average_ewma.1 priorWithAverage 10 5 0 .good rfl
      (by norm_num) (by norm_num) (by decide)⟩

/-- **C6.** `calculateMasteryLevel` (default configuration) equals the spec
formula `round(accuracy*50 + min(streak*10, 30) + min((interval/168)*20, 20))`
capped at 100, is 0 when there are no attempts, and takes the spec's two
sample values: 100 at `(3,3,3,168)` and 0 at `(0,0,0,0)`. -/
theorem calculateMasteryLevel_matches_spec (c t k : ℕ) (i : ℚ) :
    calculateMasteryLevel DEFAULT_CONFIG c t k i = masterySpec c t k i ∧
    calculateMasteryLevel DEFAULT_CONFIG 3 3 3 168 = 100 ∧
    calculateMasteryLevel DEFAULT_CONFIG 0 0 0 0 = 0 := by
  refine ⟨?_, ?_, ?_⟩
  · simp [calculateMasteryLevel, masterySpec, DEFAULT_CONFIG]
  · have h100 : jsRound (100 : ℚ) = 100 := jsRound_eq_of _ _ (by norm_num) (by norm_num)
    unfold calculateMasteryLevel
    norm_num [DEFAULT_CONFIG, h100]
  · simp [calculateMasteryLevel]

theorem reviewLE_iff (now : ℚ) (a b : Progress) :
    reviewLE now a b = true ↔ specPriorityLE now a b := by
  unfold reviewLE reviewCompare specPriorityLE specOverdue
  by_cases ha : a.nextReviewAt < now <;> by_cases hb : b.nextReviewAt < now <;>
    simp [ha, hb, not_lt.mp, sub_nonpos, not_lt, le_of_lt, sub_pos] <;>
    first
    | omega
    | simp [not_le.mpr ha, not_le.mpr hb]

theorem specPriorityLE_total (now : ℚ) (a b : Progress) :
    specPriorityLE now a b ∨ specPriorityLE now b a := by
  by_cases ha : specOverdue now a <;> by_cases hb : specOverdue now b <;>
    rcases le_total a.masteryLevel b.masteryLevel with h | h <;>
    simp [specPriorityLE, ha, hb, h]

theorem specPriorityLE_trans (now : ℚ) (a b c : Progress)
    (hab : specPriorityLE now a b) (hbc : specPriorityLE now b c) :
    specPriorityLE now a c := by
  by_cases ha : specOverdue now a <;> by_cases hb : specOverdue now b <;>
    by_cases hc : specOverdue now c <;>
    simp [specPriorityLE, ha, hb, hc] at hab hbc ⊢ <;> omega

/-- **C7, amended.** The review selection returns exactly a permutation of the
records passing the session-type filter (`immediate`: answered within the last
hour; `spaced`: answered two or more hours ago — the boundary of exactly two
hours is kept; `manual`: all), ordered with overdue records before non-overdue
ones and within equal overdue-ness ascending by mastery level, truncated to
the first `limit` records. -/
theorem getQuestionsForReview_filters_sorts_truncates (now : ℚ) (pool : List Progress)
    (t : SessionType) (limit : ℕ) :
    ∃ l : List Progress,
      l.Perm (pool.filter fun q => decide (specSessionKeeps now t q)) ∧
      List.Pairwise (specPriorityLE now) l ∧
      getQuestionsForReview now pool t limit = l.take limit := by
  have htrans : ∀ a b c : Progress, reviewLE now a b = true → reviewLE now b c = true →
      reviewLE now a c = true := fun a b c hab hbc =>
    (reviewLE_iff now a c).mpr (specPriorityLE_trans now a b c
      ((reviewLE_iff now a b).mp hab) ((reviewLE_iff now b c).mp hbc))
  have htotal : ∀ a b : Progress, (reviewLE now a b || reviewLE now b a) = true := by
    intro a b
    rcases specPriorityLE_total now a b with h | h <;>
      simp [Bool.or_eq_true, reviewLE_iff, h]
  refine ⟨(sessionFilter now t pool).mergeSort (reviewLE now), ?_, ?_, rfl⟩
  · have hfil : sessionFilter now t pool =
        pool.filter fun q => decide (specSessionKeeps now t q) := by
      cases t <;> simp [sessionFilter, specSessionKeeps]
    rw [← hfil]
    exact List.mergeSort_perm _ _
  · exact (List.sorted_mergeSort htrans htotal _).imp
      fun h => (reviewLE_iff now _ _).mp h

/-- The boundary record for the C7 counterexample: last answered exactly two
hours before the selection time `now = 2`. -/
def boundaryRecord : Progress :=
  { correctAnswers := 0
    totalAttempts := 1
    consecutiveCorrect := 0
    lastAnsweredAt := 0
    nextReviewAt := 1
    reviewInterval := 1
    masteryLevel := 0
    isCompleted := false
    lastPerformance := none
    averageResponseTime := none }

/-- **C7, counterexample.** A `spaced` session keeps a record whose
`lastAnsweredAt` is exactly two hours old (the filter is `<= twoHoursAgo`,
inclusive), while the claim's "more than 2 hours ago" would exclude it. -/
theorem spaced_filter_keeps_two_hour_boundary :
    getQuestionsForReview 2 [boundaryRecord] .spaced 20 = [boundaryRecord] ∧
    ¬ (2 - boundaryRecord.lastAnsweredAt > 2) := by
  constructor
  · have hkeep : sessionFilter 2 .spaced [boundaryRecord] = [boundaryRecord] := by
      simp only [sessionFilter, List.filter]
      norm_num [boundaryRecord]
    simp [getQuestionsForReview, hkeep]
  · norm_num [boundaryRecord]

/-- **C8, counterexample.** `generateSessionStats(250, 199, 300, 15)` returns
accuracy 80 (79.6 rounded up) and efficiency 100, yet the tier is `good`, not
`excellent`: the tier is decided on the unrounded accuracy 79.6 < 80, so
"tier is excellent iff returned accuracy ≥ 80 and returned efficiency ≥ 70"
fails. -/
theorem tier_not_excellent_despite_rounded_eighty :
    (generateSessionStats 250 199 300 15).performance ≠ .excellent ∧
    80 ≤ (generateSessionStats 250 199 300 15).accuracy ∧
    70 ≤ (generateSessionStats 250 199 300 15).efficiency := by
  have h3 : jsRound (100 : ℚ) = 100 := jsRound_eq_of _ _ (by norm_num) (by norm_num)
  have hs2 : (generateSessionStats 250 199 300 15).performance = .good := by
    unfold generateSessionStats
    norm_num
  have hsa : (generateSessionStats 250 199 300 15).accuracy = 80 := by
    unfold generateSessionStats
    norm_num
    exact jsRound_eq_of _ _ (by norm_num) (by norm_num)
  have hse : (generateSessionStats 250 199 300 15).efficiency = 100 := by
    unfold generateSessionStats
    norm_num [h3]
  refine ⟨by rw [hs2]; simp, by rw [hsa], by rw [hse]; norm_num⟩

/-- **C8, amended.** For positive session durations, `generateSessionStats`
returns the rounded spec accuracy, the questions-per-minute rounded to one
decimal, and the rounded spec efficiency, but decides the performance tier on
the *unrounded* accuracy and efficiency values: `excellent` iff raw accuracy
≥ 80 and raw efficiency ≥ 70, `needs_improvement` iff neither that nor the
(raw) `good` condition holds; `summarize(10,8,300,12)` is accuracy 80,
2.0 questions per minute, efficiency 94, tier `excellent`. -/
theorem generateSessionStats_matches_spec (q c : ℕ) (d r : ℚ) (hd : 0 < d) :
    (generateSessionStats q c d r).accuracy = jsRound (summarizeAccuracySpec q c) ∧
    (generateSessionStats q c d r).questionsPerMinute
      = (jsRound (((q : ℚ) / (d / 60)) * 10) : ℚ) / 10 ∧
    (generateSessionStats q c d r).efficiency = jsRound (summarizeEfficiencySpec r) ∧
    ((generateSessionStats q c d r).performance = .excellent ↔
      (80 ≤ summarizeAccuracySpec q c ∧ 70 ≤ summarizeEfficiencySpec r)) ∧
    ((generateSessionStats q c d r).performance = .needs_improvement ↔
      (¬ (80 ≤ summarizeAccuracySpec q c ∧ 70 ≤ summarizeEfficiencySpec r) ∧
       ¬ (60 ≤ summarizeAccuracySpec q c ∧ 50 ≤ summarizeEfficiencySpec r))) ∧
    generateSessionStats 10 8 300 12 =
      { accuracy := 80, questionsPerMinute := 2, efficiency := 94,
        performance := .excellent } := by
  have hacc : (if 0 < q then ((c : ℚ) / (q : ℚ)) * 100 else 0) = summarizeAccuracySpec q c := by
    rcases Nat.eq_zero_or_pos q with hq | hq <;>
      simp [summarizeAccuracySpec, hq, Nat.pos_iff_ne_zero.mp]
  have heff : max 0 (100 - |r - 15| * 2) = summarizeEfficiencySpec r := rfl
  refine ⟨?_, ?_, ?_, ?_, ?_, ?_⟩
  · simp only [generateSessionStats, hacc]
  · simp only [generateSessionStats, if_pos hd]
  · simp only [generateSessionStats]
    rfl
  · simp only [generateSessionStats, hacc, heff]
    by_cases hA : 80 ≤ summarizeAccuracySpec q c ∧ 70 ≤ summarizeEfficiencySpec r
    · simp [hA]
    · rw [if_neg hA]
      by_cases hB : 60 ≤ summarizeAccuracySpec q c ∧ 50 ≤ summarizeEfficiencySpec r <;>
        simp [hB, hA]
  · simp only [generateSessionStats, hacc, heff]
    by_cases hA : 80 ≤ summarizeAccuracySpec q c ∧ 70 ≤ summarizeEfficiencySpec r
    · simp [hA]
    · rw [if_neg hA]
      by_cases hB : 60 ≤ summarizeAccuracySpec q c ∧ 50 ≤ summarizeEfficiencySpec r <;>
        simp [hB, hA]
  · have h3 : jsRound (94 : ℚ) = 94 := jsRound_eq_of _ _ (by norm_num) (by norm_num)
    have h4 : jsRound (80 : ℚ) = 80 := jsRound_eq_of _ _ (by norm_num) (by norm_num)
    have h5 : jsRound (20 : ℚ) = 20 := jsRound_eq_of _ _ (by norm_num) (by norm_num)
    unfold generateSessionStats
    norm_num [h3, h4, h5]

/-- **C8, witness.** The amended statement instantiated at the spec's sample
session `summarize(10, 8, 300, 12)`. -/
theorem generateSessionStats_matches_spec_witness :
    (0 : ℚ) < 300 ∧
    generateSessionStats 10 8 300 12 =
      { accuracy := 80, questionsPerMinute := 2, efficiency := 94,
        performance := .excellent } :=
  ⟨by norm_num, (generateSessionStats_matches_spec 10 8 300 12 (by norm_num)).2.2.2.2.2⟩

/-- **C10.** `generateSessionStats` is total at the zero boundaries: a session
of duration 0 reports 0 questions per minute (the division is guarded), and a
session with no questions reviewed reports accuracy 0. -/
theorem generateSessionStats_zero_boundaries (q c : ℕ) (d r : ℚ) :
    (generateSessionStats q c 0 r).questionsPerMinute = 0 ∧
    (generateSessionStats 0 c d r).accuracy = 0 := by
  have h0 : jsRound (0 : ℚ) = 0 := jsRound_eq_of _ _ (by norm_num) (by norm_num)
  constructor
  · unfold generateSessionStats
    norm_num [h0]
  · unfold generateSessionStats
    norm_num [h0]

/-- **C9, amended.** `generateQuestions` fails exactly when no API key is
configured, the HTTP response is non-success, the envelope lacks usable
candidates (no `candidates`, an empty array, or a first candidate without
`content`), or the first candidate's content has an empty `parts` array (a
`TypeError` the claim's list omits).  Given a successful response whose
generated text cannot be parsed as the expected JSON, it does not fail but
returns the possibly reduced list produced by the line-scanning fallback
parser. -/
theorem generateQuestions_error_iff_and_fallback (jsonParse : String → Option Json)
    (apiKey : String) (outcome : HttpOutcome) (difficulty : Difficulty) :
    ((∃ e, generateQuestions jsonParse apiKey outcome difficulty = .error e) ↔
      (apiKey = "" ∨
       (∃ s, outcome = .httpError s) ∨
       (∃ data, outcome = .ok data ∧
         (data.candidates = none ∨
          data.candidates = some [] ∨
          (∃ c cs, data.candidates = some (c :: cs) ∧ c.content = none) ∨
          (∃ c cs content, data.candidates = some (c :: cs) ∧
            c.content = some content ∧ content.parts = []))))) ∧
    (∀ (data : GeminiEnvelope) (c : Candidate) (cs : List Candidate)
        (content : CandidateContent) (text : String) (rest : List String),
      apiKey ≠ "" → outcome = .ok data → data.candidates = some (c :: cs) →
      c.content = some content → content.parts = text :: rest →
      parsedQuestions? jsonParse text difficulty = none →
      generateQuestions jsonParse apiKey outcome difficulty =
        .ok (parseQuestionsFromText text difficulty)) := by
  constructor
  · by_cases hkey : apiKey = ""
    · simp [generateQuestions, hkey]
    · cases outcome with
      | httpError s => simp [generateQuestions, hkey]
      | ok data =>
          obtain ⟨cand⟩ := data
          rcases cand with _ | ⟨_ | ⟨c, cs⟩⟩
          · simp [generateQuestions, hkey]
          · simp [generateQuestions, hkey]
          · obtain ⟨ccon⟩ := c
            rcases ccon with _ | ⟨⟨parts⟩⟩
            · simp [generateQuestions, hkey]
            · rcases parts with _ | ⟨t, rest⟩
              · simp [generateQuestions, hkey]
              · simp [generateQuestions, hkey]
  · intro data c cs content text rest hkey hout hcand hcontent hparts hparse
    subst hout
    simp [generateQuestions, hkey, hcand, hcontent, hparts,
      parseGeneratedQuestions, hparse]

/-- The envelope for the C9 counterexample: a successful response whose first
candidate has content with an empty `parts` array. -/
def emptyPartsEnvelope : GeminiEnvelope := ⟨some [⟨some ⟨[]⟩⟩]⟩

/-- **C9, counterexample.** With an API key configured and a successful HTTP
response whose envelope does have a candidate with content,
`generateQuestions` still fails (the unguarded `parts[0].text` throws), so
"fails exactly when no API key, non-success response, or envelope lacking
candidates" is violated. -/
theorem generateQuestions_fails_beyond_claimed_conditions :
    generateQuestions (fun _ => none) "key" (.ok emptyPartsEnvelope) .medium
      = .error .missingPart ∧
    ¬ (("key" : String) = "" ∨
       (∃ s, (HttpOutcome.ok emptyPartsEnvelope) = .httpError s) ∨
       emptyPartsEnvelope.candidates = none ∨
       emptyPartsEnvelope.candidates = some [] ∨
       (∃ c cs, emptyPartsEnvelope.candidates = some (c :: cs) ∧ c.content = none)) := by
  constructor
  · rfl
  · rintro (h | ⟨s, h⟩ | h | h | ⟨c, cs, hcc, hcontent⟩) <;>
      simp_all [emptyPartsEnvelope] <;>
      simp [← hcc.1] at hcontent

/-- The envelope for the C9 witness: a successful response whose single text
part contains no JSON block at all. -/
def fallbackEnvelope : GeminiEnvelope := ⟨some [⟨some ⟨["no json in this text"]⟩⟩]⟩

/-- **C9, witness.** With a key, a successful response, a usable candidate,
and an unparseable text, `generateQuestions` degrades to the fallback
line-scanning parser instead of failing. -/
theorem generateQuestions_error_iff_and_fallback_witness :
    ("key" : String) ≠ "" ∧
    parsedQuestions? (fun _ => none) "no json in this text" .medium = none ∧
    generateQuestions (fun _ => none) "key" (.ok fallbackEnvelope) .medium =
      .ok (parseQuestionsFromText "no json in this text" .medium) :=
  ⟨by decide, rfl,
    (generateQuestions_error_iff_and_fallback (fun _ => none) "key"
        (.ok fallbackEnvelope) .medium).2
      fallbackEnvelope ⟨some ⟨["no json in this text"]⟩⟩ [] ⟨["no json in this text"]⟩
      "no json in this text" [] (by decide) rfl rfl rfl rfl rfl⟩
